import Mathlib

/-!
Shallow embedding of `src/snake_game.py`, a pygame snake game.

Coordinates are kept in the source's own units: screen pixels, stored as
Python ints (modelled by `Int`).  The snake advances by
`SNAKE_BLOCK_SIZE = 20` pixels per tick, i.e. by exactly one grid cell.

Randomness: the only random primitive the source uses is
`random.randrange(0, n)`, whose result is an arbitrary integer in
`[0, n)`.  We model the pseudo-random source as a finite list of raw
draws (`Sample = Nat × Nat`, one pair per iteration of the
`randomize_position` loop), each reduced into range with `% n`; ranging
over all sample lists ranges over all possible in-range draw sequences.
`Food.randomize_position` returns `none` when the supplied draw list is
exhausted before a sample misses the exclusion list — the situation in
which the Python `while True` loop is still spinning.

The pygame event loop is modelled by `GEvent`: the events the source
inspects (window close, arrow keys, `r`, `q`) plus a catch-all `other`.
One iteration of the `while running` loop is `step`, which takes the
frame's event list and the pseudo-random draws available to the frame.
-/

abbrev Pos := Int × Int

abbrev Sample := Nat × Nat

/-- `screen_width = 800` (line 8). -/
def screen_width : Int := 800

/-- `screen_height = 600` (line 9). -/
def screen_height : Int := 600

/-- `SNAKE_BLOCK_SIZE = 20` (line 23). -/
def SNAKE_BLOCK_SIZE : Int := 20

/-- `FOOD_BLOCK_SIZE = 20` (line 24). -/
def FOOD_BLOCK_SIZE : Int := 20

/-- `screen_width // FOOD_BLOCK_SIZE` — the grid width in cells (40). -/
def grid_width : Nat := (screen_width / FOOD_BLOCK_SIZE).toNat

/-- `screen_height // FOOD_BLOCK_SIZE` — the grid height in cells (30). -/
def grid_height : Nat := (screen_height / FOOD_BLOCK_SIZE).toNat

/-- The `Snake` class state (lines 29–45): target length, body list
(head first), direction vector, and score.  The `color` field is
render-only and omitted. -/
structure Snake where
  length : Nat
  positions : List Pos
  direction : Int × Int
  score : Nat
deriving DecidableEq

/-- `Snake.__init__(x, y)` (lines 34–45). -/
def Snake.init (x y : Int) : Snake :=
  { length := 1, positions := [(x, y)], direction := (1, 0), score := 0 }

/-- `Snake.get_head_position` (lines 47–49): `self.positions[0]`.
On an empty body Python would raise; `headI` supplies a junk default,
and every theorem that needs the head assumes a non-empty body. -/
def Snake.get_head_position (s : Snake) : Pos :=
  s.positions.headI

/-- `Snake.move` (lines 51–65): prepend `head + direction * SNAKE_BLOCK_SIZE`,
then pop the last segment if the body exceeds the target length. -/
def Snake.move (s : Snake) : Snake :=
  let hd := s.get_head_position
  let new_head : Pos :=
    (hd.1 + s.direction.1 * SNAKE_BLOCK_SIZE, hd.2 + s.direction.2 * SNAKE_BLOCK_SIZE)
  let ps := new_head :: s.positions
  { s with positions := if ps.length > s.length then ps.dropLast else ps }

/-- `Snake.grow` (lines 67–70): `self.length += 1; self.score += 1`. -/
def Snake.grow (s : Snake) : Snake :=
  { s with length := s.length + 1, score := s.score + 1 }

/-- `Snake.check_collision_with_self` (lines 72–76):
`head in self.positions[1:]`. -/
def Snake.check_collision_with_self (s : Snake) : Bool :=
  decide (s.get_head_position ∈ s.positions.tail)

/-- `Snake.change_direction(new_direction)` (lines 89–99): ignore the
request when it is the exact opposite of the current direction. -/
def Snake.change_direction (s : Snake) (nd : Int × Int) : Snake :=
  if (nd.1 * -1, nd.2 * -1) = s.direction then s
  else { s with direction := nd }

/-- The `Food` class state (lines 101–130): just a position (the
`color` field is render-only). -/
structure Food where
  position : Pos
deriving DecidableEq

/-- One iteration of the sampling loop in `Food.randomize_position`
(lines 124–127): `random.randrange(0, screen_width // FOOD_BLOCK_SIZE) *
FOOD_BLOCK_SIZE` and likewise for `y`.  A raw draw is reduced into
`[0, n)` with `% n`. -/
def foodSample (s : Sample) : Pos :=
  (((s.1 % grid_width : Nat) : Int) * FOOD_BLOCK_SIZE,
   ((s.2 % grid_height : Nat) : Int) * FOOD_BLOCK_SIZE)

/-- `Food.randomize_position(snake_positions)` (lines 116–130): keep
sampling until the sample is not on the snake.  Returns the position
assigned to `self.position`, or `none` if the draw list runs out while
the loop is still going. -/
def Food.randomize_position (excluded : List Pos) : List Sample → Option Pos
  | [] => none
  | s :: rest =>
    if foodSample s ∈ excluded then Food.randomize_position excluded rest
    else some (foodSample s)

/-- The pygame events the main loop inspects: `pygame.QUIT`, the four
arrow keys, `K_r`, `K_q`, and a catch-all for every other event. -/
inductive GEvent where
  | quit
  | key_up
  | key_down
  | key_left
  | key_right
  | key_r
  | key_q
  | other
deriving DecidableEq

/-- The direction vector the active-game event handler passes to
`change_direction` for an event (lines 199–206), if any. -/
def keyDirection : GEvent → Option (Int × Int)
  | .key_up => some (0, -1)
  | .key_down => some (0, 1)
  | .key_left => some (-1, 0)
  | .key_right => some (1, 0)
  | _ => none

/-- Effect of one event on the snake in the active branch
(lines 195–206); only arrow keys do anything to the snake. -/
def handle_active_event (s : Snake) (e : GEvent) : Snake :=
  match keyDirection e with
  | some d => s.change_direction d
  | none => s

/-- The whole active-branch event loop's effect on the snake. -/
def apply_events (s : Snake) (evs : List GEvent) : Snake :=
  evs.foldl handle_active_event s

/-- Whether an event sets `running = False` in the active branch
(line 196: only `pygame.QUIT`). -/
def quit_event : GEvent → Bool
  | .quit => true
  | _ => false

/-- Whether an event sets `running = False` in the game-over branch
(lines 251–255: `pygame.QUIT` or `K_q`). -/
def stops_running : GEvent → Bool
  | .quit => true
  | .key_q => true
  | _ => false

/-- The whole game state the main loop reads and writes: the globals
`snake`, `food`, `game_active`, `game_over_state` (lines 181–184). -/
structure GameState where
  snake : Snake
  food : Food
  game_active : Bool
  game_over_state : Bool
deriving DecidableEq

/-- `screen_width // 2 - SNAKE_BLOCK_SIZE // 2` (line 171): `390`. -/
def start_x : Int := screen_width / 2 - SNAKE_BLOCK_SIZE / 2

/-- `screen_height // 2 - SNAKE_BLOCK_SIZE // 2` (line 172): `290`. -/
def start_y : Int := screen_height / 2 - SNAKE_BLOCK_SIZE / 2

/-- `reset_game()` (lines 163–177): fresh centered snake, fresh food
avoiding the snake, `game_active = True`, `game_over_state = False`. -/
def reset_game (samples : List Sample) : Option GameState :=
  match Food.randomize_position (Snake.init start_x start_y).positions samples with
  | some p =>
    some { snake := Snake.init start_x start_y, food := { position := p },
           game_active := true, game_over_state := false }
  | none => none

/-- The boundary test of line 214: `0 <= head_x < screen_width and
0 <= head_y < screen_height`. -/
def in_bounds (p : Pos) : Prop :=
  0 ≤ p.1 ∧ p.1 < screen_width ∧ 0 ≤ p.2 ∧ p.2 < screen_height

instance (p : Pos) : Decidable (in_bounds p) := by
  unfold in_bounds; exact inferInstance

/-- One iteration of the main loop with `game_active = True`
(lines 194–228): handle events, `snake.move()`, boundary check,
self-collision check (only if still active), food check (only if still
active).  Returns the new state and the `running` flag. -/
def active_branch (samples : List Sample) (evs : List GEvent) (g : GameState) :
    Option (GameState × Bool) :=
  if ¬ in_bounds ((apply_events g.snake evs).move).get_head_position then
    some ({ g with snake := (apply_events g.snake evs).move,
                   game_active := false, game_over_state := true },
          !evs.any quit_event)
  else if ((apply_events g.snake evs).move).check_collision_with_self then
    some ({ g with snake := (apply_events g.snake evs).move,
                   game_active := false, game_over_state := true },
          !evs.any quit_event)
  else if ((apply_events g.snake evs).move).get_head_position = g.food.position then
    match Food.randomize_position (((apply_events g.snake evs).move).grow).positions samples with
    | some p =>
      some ({ g with snake := ((apply_events g.snake evs).move).grow,
                     food := { position := p } },
            !evs.any quit_event)
    | none => none
  else
    some ({ g with snake := (apply_events g.snake evs).move }, !evs.any quit_event)

/-- Effect of one event in the game-over branch (lines 250–257):
`QUIT`/`K_q` stop the loop, `K_r` calls `reset_game()`, everything else
is ignored. -/
def handle_over_event (samples : List Sample) :
    GameState × Bool → GEvent → Option (GameState × Bool)
  | (g, _), .quit => some (g, false)
  | (g, _), .key_q => some (g, false)
  | (g, r'), .key_r =>
    match reset_game samples with
    | some g' => some (g', r')
    | none => none
  | (g, r'), _ => some (g, r')

/-- One iteration of the main loop with `game_active = False`
(lines 239–257): only the event loop runs, folding `handle_over_event`
over the frame's events; drawing is render-only. -/
def over_branch (samples : List Sample) : List GEvent → GameState × Bool → Option (GameState × Bool)
  | [], acc => some acc
  | e :: rest, acc =>
    match handle_over_event samples acc e with
    | some acc' => over_branch samples rest acc'
    | none => none

/-- One full iteration of `while running` (lines 192–261). -/
def step (samples : List Sample) (evs : List GEvent) (g : GameState) :
    Option (GameState × Bool) :=
  if g.game_active then active_branch samples evs g
  else over_branch samples evs (g, true)

/-- States reachable by the program: the initial `reset_game()` call of
line 186, followed by any number of main-loop iterations. -/
inductive Reachable : GameState → Prop where
  | reset : ∀ samples g, reset_game samples = some g → Reachable g
  | step : ∀ samples evs g g' b, Reachable g → step samples evs g = some (g', b) →
      Reachable g'

/-- The pairwise "opposite" relation on direction vectors that
`change_direction` rejects: `(dx, dy) ↦ (-dx, -dy)`. -/
def opposite (d : Int × Int) : Int × Int := (-d.1, -d.2)

/-- The four cardinal unit vectors the key handler can request
(lines 199–206). -/
def cardinal_directions : List (Int × Int) := [(0, -1), (0, 1), (-1, 0), (1, 0)]

/-- The pixel position of grid cell `(i, j)`, exactly as
`randomize_position` computes it: `i * FOOD_BLOCK_SIZE` by
`j * FOOD_BLOCK_SIZE`. -/
def grid_cell (i j : Nat) : Pos := ((i : Int) * FOOD_BLOCK_SIZE, (j : Int) * FOOD_BLOCK_SIZE)

/-- Invariant carried by every reachable game state: a non-empty body
whose cell count is the target length or one below it (one below only
between a consumption and the next move), every body cell congruent to
the start cell modulo the block size, and the food on the
`FOOD_BLOCK_SIZE` lattice. -/
def SnakeFoodInv (g : GameState) : Prop :=
  g.snake.positions ≠ [] ∧
  (g.snake.positions.length = g.snake.length ∨
    g.snake.positions.length + 1 = g.snake.length) ∧
  (∀ p ∈ g.snake.positions,
    p.1 % SNAKE_BLOCK_SIZE = start_x % SNAKE_BLOCK_SIZE ∧
    p.2 % SNAKE_BLOCK_SIZE = start_y % SNAKE_BLOCK_SIZE) ∧
  g.food.position.1 % FOOD_BLOCK_SIZE = 0 ∧
  g.food.position.2 % FOOD_BLOCK_SIZE = 0

/-- The food cell of the C1 scenario: one block to the right of the
reset head. -/
def scenario_food : Pos := (start_x + SNAKE_BLOCK_SIZE, start_y)

/-- The C1 scenario state: a freshly reset snake with the food placed
on the cell immediately to the right of its head. -/
def scenario_start : GameState :=
  { snake := Snake.init start_x start_y, food := { position := scenario_food },
    game_active := true, game_over_state := false }

/-- A concrete state produced by `reset_game` when the first raw draw
is `(0, 0)`; used to exhibit reachable states. -/
def g0 : GameState :=
  { snake := Snake.init start_x start_y, food := { position := (0, 0) },
    game_active := true, game_over_state := false }

/-- A draw list containing one raw draw for every grid cell. -/
def all_samples : List Sample :=
  (List.range grid_width).flatMap fun i => (List.range grid_height).map fun j => (i, j)

/-- An active state whose snake is about to cross the right wall; used
to exhibit the boundary-death tick. -/
def wall_state : GameState :=
  { snake := { length := 1, positions := [(790, 290)], direction := (1, 0), score := 0 },
    food := { position := (0, 0) }, game_active := true, game_over_state := false }

/-- A game-over state; used to exhibit the game-over freeze. -/
def over_state : GameState :=
  { snake := { length := 1, positions := [(790, 290)], direction := (1, 0), score := 0 },
    food := { position := (0, 0) }, game_active := false, game_over_state := true }

/-! ### Basic lemmas about the `Snake` operations -/

theorem grid_width_eq : grid_width = 40 := rfl

theorem grid_height_eq : grid_height = 30 := rfl

theorem change_direction_fields (s : Snake) (d : Int × Int) :
    (s.change_direction d).positions = s.positions ∧
    (s.change_direction d).length = s.length ∧
    (s.change_direction d).score = s.score := by
  unfold Snake.change_direction
  split <;> exact ⟨rfl, rfl, rfl⟩

theorem handle_active_event_fields (s : Snake) (e : GEvent) :
    (handle_active_event s e).positions = s.positions ∧
    (handle_active_event s e).length = s.length ∧
    (handle_active_event s e).score = s.score := by
  cases e <;>
    first
      | exact change_direction_fields s _
      | exact ⟨rfl, rfl, rfl⟩

theorem apply_events_fields (evs : List GEvent) (s : Snake) :
    (apply_events s evs).positions = s.positions ∧
    (apply_events s evs).length = s.length ∧
    (apply_events s evs).score = s.score := by
  induction evs generalizing s with
  | nil => exact ⟨rfl, rfl, rfl⟩
  | cons e rest ih =>
    have h1 := handle_active_event_fields s e
    have h2 := ih (handle_active_event s e)
    exact ⟨h2.1.trans h1.1, h2.2.1.trans h1.2.1, h2.2.2.trans h1.2.2⟩

theorem move_positions (s : Snake) (a : Pos) (t : List Pos) (hp : s.positions = a :: t) :
    (s.move).positions =
      (a.1 + s.direction.1 * SNAKE_BLOCK_SIZE, a.2 + s.direction.2 * SNAKE_BLOCK_SIZE) ::
        (if s.positions.length + 1 > s.length then s.positions.dropLast
         else s.positions) := by
  unfold Snake.move Snake.get_head_position
  rw [hp]
  simp only [List.headI, List.length_cons, List.dropLast_cons₂, gt_iff_lt]
  split <;> rfl

theorem move_length (s : Snake) :
    (s.move).positions.length =
      if s.length ≤ s.positions.length then s.positions.length
      else s.positions.length + 1 := by
  unfold Snake.move Snake.get_head_position
  simp only [List.length_cons, gt_iff_lt]
  split_ifs with h1 h2 h3
  · simp only [List.length_dropLast, List.length_cons]
    omega
  · omega
  · omega
  · simp only [List.length_cons]

theorem move_realizes_length (s : Snake)
    (h : s.positions.length = s.length ∨ s.positions.length + 1 = s.length) :
    (s.move).positions.length = (s.move).length := by
  have hmv : (s.move).length = s.length := rfl
  rw [move_length, hmv]
  rcases h with h | h <;> split_ifs <;> omega

theorem move_ne_nil (s : Snake) (hne : s.positions ≠ []) :
    (s.move).positions ≠ [] := by
  obtain ⟨a, t, hp⟩ := List.exists_cons_of_ne_nil hne
  rw [move_positions s a t hp]
  exact List.cons_ne_nil _ _

theorem move_mod (s : Snake) (c1 c2 : Int)
    (hall : ∀ p ∈ s.positions,
      p.1 % SNAKE_BLOCK_SIZE = c1 ∧ p.2 % SNAKE_BLOCK_SIZE = c2)
    (hne : s.positions ≠ []) :
    ∀ p ∈ (s.move).positions,
      p.1 % SNAKE_BLOCK_SIZE = c1 ∧ p.2 % SNAKE_BLOCK_SIZE = c2 := by
  obtain ⟨a, t, hp⟩ := List.exists_cons_of_ne_nil hne
  intro p hmem
  rw [move_positions s a t hp] at hmem
  rcases List.mem_cons.1 hmem with rfl | hmem'
  · have hh := hall a (by rw [hp]; exact List.mem_cons_self a t)
    refine ⟨?_, ?_⟩
    · show (a.1 + s.direction.1 * SNAKE_BLOCK_SIZE) % SNAKE_BLOCK_SIZE = c1
      rw [Int.add_mul_emod_self]
      exact hh.1
    · show (a.2 + s.direction.2 * SNAKE_BLOCK_SIZE) % SNAKE_BLOCK_SIZE = c2
      rw [Int.add_mul_emod_self]
      exact hh.2
  · have hsub : p ∈ s.positions := by
      split at hmem'
      · exact List.dropLast_subset _ hmem'
      · exact hmem'
    exact hall p hsub

/-! ### Lemmas about the food sampler -/

theorem foodSample_spec (s : Sample) :
    0 ≤ (foodSample s).1 ∧ (foodSample s).1 < screen_width ∧
    0 ≤ (foodSample s).2 ∧ (foodSample s).2 < screen_height ∧
    (foodSample s).1 % FOOD_BLOCK_SIZE = 0 ∧
    (foodSample s).2 % FOOD_BLOCK_SIZE = 0 := by
  have h1 : s.1 % grid_width < 40 := by
    rw [grid_width_eq]; exact Nat.mod_lt _ (by norm_num)
  have h2 : s.2 % grid_height < 30 := by
    rw [grid_height_eq]; exact Nat.mod_lt _ (by norm_num)
  simp only [foodSample, FOOD_BLOCK_SIZE, screen_width, screen_height]
  omega

theorem randomize_position_spec (excluded : List Pos) (samples : List Sample) (p : Pos)
    (h : Food.randomize_position excluded samples = some p) :
    p ∉ excluded ∧ 0 ≤ p.1 ∧ p.1 < screen_width ∧ 0 ≤ p.2 ∧ p.2 < screen_height ∧
    p.1 % FOOD_BLOCK_SIZE = 0 ∧ p.2 % FOOD_BLOCK_SIZE = 0 := by
  induction samples with
  | nil => simp [Food.randomize_position] at h
  | cons s rest ih =>
    by_cases hmem : foodSample s ∈ excluded
    · rw [Food.randomize_position, if_pos hmem] at h
      exact ih h
    · rw [Food.randomize_position, if_neg hmem] at h
      obtain rfl : foodSample s = p := Option.some.inj h
      exact ⟨hmem, foodSample_spec s⟩

theorem randomize_position_isSome (excluded : List Pos) (samples : List Sample)
    (h : ∃ s ∈ samples, foodSample s ∉ excluded) :
    ∃ p, Food.randomize_position excluded samples = some p := by
  induction samples with
  | nil =>
    obtain ⟨s, hs, -⟩ := h
    simp at hs
  | cons s rest ih =>
    by_cases hmem : foodSample s ∈ excluded
    · rw [Food.randomize_position, if_pos hmem]
      apply ih
      obtain ⟨s', hs', hgood⟩ := h
      rcases List.mem_cons.1 hs' with rfl | h'
      · exact absurd hmem hgood
      · exact ⟨s', h', hgood⟩
    · exact ⟨foodSample s, by rw [Food.randomize_position, if_neg hmem]⟩

theorem all_samples_cover :
    ∀ i < grid_width, ∀ j < grid_height,
      ∃ s ∈ all_samples, foodSample s = grid_cell i j := by
  intro i hi j hj
  refine ⟨(i, j), ?_, ?_⟩
  · unfold all_samples
    exact List.mem_flatMap.2
      ⟨i, List.mem_range.2 hi, List.mem_map.2 ⟨j, List.mem_range.2 hj, rfl⟩⟩
  · unfold foodSample grid_cell
    rw [Nat.mod_eq_of_lt hi, Nat.mod_eq_of_lt hj]

/-! ### The reachable-state invariant -/

theorem reset_inv (samples : List Sample) (g : GameState)
    (h : reset_game samples = some g) : SnakeFoodInv g := by
  unfold reset_game at h
  split at h
  · next p heq =>
    obtain rfl := Option.some.inj h
    have hspec := randomize_position_spec _ _ _ heq
    refine ⟨by simp [Snake.init], Or.inl rfl, ?_, hspec.2.2.2.2.2.1, hspec.2.2.2.2.2.2⟩
    intro q hq
    have : q = (start_x, start_y) := by
      simpa [Snake.init] using hq
    subst this
    exact ⟨rfl, rfl⟩
  · exact absurd h (by simp)

theorem moved_snake_inv (s : Snake)
    (hne : s.positions ≠ [])
    (hlen : s.positions.length = s.length ∨ s.positions.length + 1 = s.length)
    (hmod : ∀ p ∈ s.positions,
      p.1 % SNAKE_BLOCK_SIZE = start_x % SNAKE_BLOCK_SIZE ∧
      p.2 % SNAKE_BLOCK_SIZE = start_y % SNAKE_BLOCK_SIZE) :
    (s.move).positions ≠ [] ∧
    (s.move).positions.length = (s.move).length ∧
    (∀ p ∈ (s.move).positions,
      p.1 % SNAKE_BLOCK_SIZE = start_x % SNAKE_BLOCK_SIZE ∧
      p.2 % SNAKE_BLOCK_SIZE = start_y % SNAKE_BLOCK_SIZE) :=
  ⟨move_ne_nil s hne, move_realizes_length s hlen, move_mod s _ _ hmod hne⟩

theorem step_inv_active (samples : List Sample) (evs : List GEvent) (g : GameState)
    (g' : GameState) (b : Bool) (hInv : SnakeFoodInv g)
    (h : active_branch samples evs g = some (g', b)) : SnakeFoodInv g' := by
  obtain ⟨hne, hlen, hmod, hf1, hf2⟩ := hInv
  have hfields := apply_events_fields evs g.snake
  have hne' : (apply_events g.snake evs).positions ≠ [] := by rw [hfields.1]; exact hne
  have hlen' : (apply_events g.snake evs).positions.length =
      (apply_events g.snake evs).length ∨
      (apply_events g.snake evs).positions.length + 1 =
      (apply_events g.snake evs).length := by
    rw [hfields.1, hfields.2.1]; exact hlen
  have hmod' : ∀ p ∈ (apply_events g.snake evs).positions,
      p.1 % SNAKE_BLOCK_SIZE = start_x % SNAKE_BLOCK_SIZE ∧
      p.2 % SNAKE_BLOCK_SIZE = start_y % SNAKE_BLOCK_SIZE := by
    rw [hfields.1]; exact hmod
  have hmv := moved_snake_inv (apply_events g.snake evs) hne' hlen' hmod'
  unfold active_branch at h
  by_cases h1 : in_bounds ((apply_events g.snake evs).move).get_head_position
  · rw [if_neg (not_not_intro h1)] at h
    by_cases h2 : ((apply_events g.snake evs).move).check_collision_with_self = true
    · rw [if_pos h2] at h
      obtain rfl : _ = g' := congrArg Prod.fst (Option.some.inj h)
      exact ⟨hmv.1, Or.inl hmv.2.1, hmv.2.2, hf1, hf2⟩
    · rw [if_neg h2] at h
      by_cases h3 : ((apply_events g.snake evs).move).get_head_position = g.food.position
      · rw [if_pos h3] at h
        split at h
        · next p heq =>
          obtain rfl : _ = g' := congrArg Prod.fst (Option.some.inj h)
          have hspec := randomize_position_spec _ _ _ heq
          refine ⟨hmv.1, Or.inr ?_, hmv.2.2, hspec.2.2.2.2.2.1, hspec.2.2.2.2.2.2⟩
          show ((apply_events g.snake evs).move).positions.length + 1 =
            ((apply_events g.snake evs).move).grow.length
          rw [hmv.2.1]
          rfl
        · exact absurd h (by simp)
      · rw [if_neg h3] at h
        obtain rfl : _ = g' := congrArg Prod.fst (Option.some.inj h)
        exact ⟨hmv.1, Or.inl hmv.2.1, hmv.2.2, hf1, hf2⟩
  · rw [if_pos h1] at h
    obtain rfl : _ = g' := congrArg Prod.fst (Option.some.inj h)
    exact ⟨hmv.1, Or.inl hmv.2.1, hmv.2.2, hf1, hf2⟩

theorem step_inv_over (samples : List Sample) (evs : List GEvent)
    (acc res : GameState × Bool) (hInv : SnakeFoodInv acc.1)
    (h : over_branch samples evs acc = some res) : SnakeFoodInv res.1 := by
  induction evs generalizing acc with
  | nil =>
    rw [over_branch] at h
    obtain rfl := Option.some.inj h
    exact hInv
  | cons e rest ih =>
    obtain ⟨gacc, racc⟩ := acc
    rw [over_branch] at h
    cases e with
    | key_r =>
      simp only [handle_over_event] at h
      split at h
      · next acc' heq =>
        split at heq
        · next g'' hres =>
          obtain rfl := Option.some.inj heq
          exact ih _ (reset_inv samples g'' hres) h
        · exact absurd heq (by simp)
      · exact absurd h (by simp)
    | quit =>
      simp only [handle_over_event] at h
      exact ih (gacc, false) hInv h
    | key_up =>
      simp only [handle_over_event] at h
      exact ih _ hInv h
    | key_down =>
      simp only [handle_over_event] at h
      exact ih _ hInv h
    | key_left =>
      simp only [handle_over_event] at h
      exact ih _ hInv h
    | key_right =>
      simp only [handle_over_event] at h
      exact ih _ hInv h
    | key_q =>
      simp only [handle_over_event] at h
      exact ih (gacc, false) hInv h
    | other =>
      simp only [handle_over_event] at h
      exact ih _ hInv h

theorem step_inv (samples : List Sample) (evs : List GEvent) (g g' : GameState) (b : Bool)
    (hInv : SnakeFoodInv g) (h : step samples evs g = some (g', b)) : SnakeFoodInv g' := by
  unfold step at h
  split_ifs at h with hAct
  · exact step_inv_active samples evs g g' b hInv h
  · exact step_inv_over samples evs (g, true) (g', b) hInv h

theorem reachable_inv (g : GameState) (h : Reachable g) : SnakeFoodInv g := by
  induction h with
  | reset samples g hg => exact reset_inv samples g hg
  | step samples evs g g' b _ hstep ih => exact step_inv samples evs g g' b ih hstep

/-! ### Claim theorems -/

/-- C2: `move()` computes the new head as the old head plus the current
direction times one grid-cell step (`SNAKE_BLOCK_SIZE` in the pixel
coordinates the code stores), prepends it to the body, and removes the
last (oldest) element exactly when the body length exceeds the target
`length`; so exactly one cell is added and at most one removed. -/
theorem C2_move_spec (s : Snake) (a : Pos) (t : List Pos) (hp : s.positions = a :: t) :
    (s.move).positions =
      (a.1 + s.direction.1 * SNAKE_BLOCK_SIZE, a.2 + s.direction.2 * SNAKE_BLOCK_SIZE) ::
        (if s.positions.length + 1 > s.length then s.positions.dropLast
         else s.positions) ∧
    (s.move).positions.length =
      (if s.length ≤ s.positions.length then s.positions.length
       else s.positions.length + 1) :=
  ⟨move_positions s a t hp, move_length s⟩

theorem C2_move_spec_witness :
    ((⟨3, [((0 : Int), (0 : Int))], (0, 1), 0⟩ : Snake).move).positions =
      ((0 : Int) + 0 * SNAKE_BLOCK_SIZE, (0 : Int) + 1 * SNAKE_BLOCK_SIZE) ::
        (if ([((0 : Int), (0 : Int))] : List Pos).length + 1 > 3 then
          ([((0 : Int), (0 : Int))] : List Pos).dropLast
         else [((0 : Int), (0 : Int))]) ∧
    ((⟨3, [((0 : Int), (0 : Int))], (0, 1), 0⟩ : Snake).move).positions.length =
      (if 3 ≤ ([((0 : Int), (0 : Int))] : List Pos).length then
        ([((0 : Int), (0 : Int))] : List Pos).length
       else ([((0 : Int), (0 : Int))] : List Pos).length + 1) :=
  C2_move_spec ⟨3, [((0 : Int), (0 : Int))], (0, 1), 0⟩ ((0 : Int), (0 : Int)) [] rfl

/-- C3: with the current direction one of the four cardinal unit
vectors, `change_direction(opposite(D))` is a no-op and
`change_direction` with any of the other three cardinal directions sets
the direction to that value. -/
theorem C3_no_reversal (s : Snake) (hd : s.direction ∈ cardinal_directions) :
    s.change_direction (opposite s.direction) = s ∧
    ∀ d ∈ cardinal_directions, d ≠ opposite s.direction →
      (s.change_direction d).direction = d := by
  constructor
  · have hcond : ((opposite s.direction).1 * -1, (opposite s.direction).2 * -1)
        = s.direction := by
      unfold opposite
      simp
    unfold Snake.change_direction
    rw [if_pos hcond]
  · intro d hmem hne
    have hcond : ¬ ((d.1 * -1, d.2 * -1) = s.direction) := by
      intro hc
      apply hne
      unfold opposite
      rw [← hc]
      simp
    unfold Snake.change_direction
    rw [if_neg hcond]

theorem C3_no_reversal_witness :
    (⟨1, [((5 : Int), (5 : Int))], (1, 0), 0⟩ : Snake).change_direction
        (opposite (1, 0)) = ⟨1, [((5 : Int), (5 : Int))], (1, 0), 0⟩ ∧
    ((⟨1, [((5 : Int), (5 : Int))], (1, 0), 0⟩ : Snake).change_direction
        (0, 1)).direction = (0, 1) :=
  ⟨(C3_no_reversal ⟨1, [((5 : Int), (5 : Int))], (1, 0), 0⟩ (by decide)).1,
   (C3_no_reversal ⟨1, [((5 : Int), (5 : Int))], (1, 0), 0⟩ (by decide)).2
     (0, 1) (by decide) (by decide)⟩

/-- C4: with the body already at the target length `L`, `grow()` sets
the target length to `L + 1` and increments the score by exactly 1
while leaving the body unchanged (still `L` cells); the body only
reaches `L + 1` cells after the next `move()`. -/
theorem C4_growth_deferral (s : Snake) (hL : s.positions.length = s.length) :
    (s.grow).length = s.length + 1 ∧
    (s.grow).score = s.score + 1 ∧
    (s.grow).positions = s.positions ∧
    (s.grow).positions.length = s.length ∧
    ((s.grow).move).positions.length = s.length + 1 := by
  refine ⟨rfl, rfl, rfl, hL, ?_⟩
  have h1 : (s.grow).length = s.length + 1 := rfl
  have h2 : (s.grow).positions = s.positions := rfl
  rw [move_length, h1, h2, hL]
  split_ifs <;> omega

theorem C4_growth_deferral_witness :
    ((Snake.init 100 100).grow).length = (Snake.init 100 100).length + 1 ∧
    ((Snake.init 100 100).grow).score = (Snake.init 100 100).score + 1 ∧
    ((Snake.init 100 100).grow).positions = (Snake.init 100 100).positions ∧
    ((Snake.init 100 100).grow).positions.length = (Snake.init 100 100).length ∧
    (((Snake.init 100 100).grow).move).positions.length =
      (Snake.init 100 100).length + 1 :=
  C4_growth_deferral (Snake.init 100 100) rfl

/-- C7: whenever `Food.randomize_position(excluded_cells)` returns, the
resulting position lies within the playable grid (in bounds, on the
`FOOD_BLOCK_SIZE` lattice) and is not a member of `excluded_cells`; in
particular, with `excluded_cells = Snake.body` the food never lands on
the snake at the moment it is (re)placed. -/
theorem C7_food_exclusion (excluded : List Pos) (samples : List Sample) (p : Pos)
    (h : Food.randomize_position excluded samples = some p) :
    p ∉ excluded ∧ 0 ≤ p.1 ∧ p.1 < screen_width ∧ 0 ≤ p.2 ∧ p.2 < screen_height ∧
    p.1 % FOOD_BLOCK_SIZE = 0 ∧ p.2 % FOOD_BLOCK_SIZE = 0 :=
  randomize_position_spec excluded samples p h

theorem C7_food_exclusion_witness :
    ((20 : Int), (20 : Int)) ∉ [((0 : Int), (0 : Int))] ∧
    0 ≤ ((20 : Int), (20 : Int)).1 ∧ ((20 : Int), (20 : Int)).1 < screen_width ∧
    0 ≤ ((20 : Int), (20 : Int)).2 ∧ ((20 : Int), (20 : Int)).2 < screen_height ∧
    ((20 : Int), (20 : Int)).1 % FOOD_BLOCK_SIZE = 0 ∧
    ((20 : Int), (20 : Int)).2 % FOOD_BLOCK_SIZE = 0 :=
  C7_food_exclusion [((0 : Int), (0 : Int))] [(0, 0), (1, 1)] (20, 20) (by decide)

/-- C8: `Food.randomize_position(excluded_cells)` terminates whenever
the excluded list has fewer cells than the grid, provided the random
draw list offers every grid cell (the almost-sure behavior of the
uniform sampler): some sample misses the exclusion list, and the loop
stops at the first such sample. -/
theorem C8_spawn_termination (excluded : List Pos) (samples : List Sample)
    (hcover : ∀ i < grid_width, ∀ j < grid_height,
      ∃ s ∈ samples, foodSample s = grid_cell i j)
    (hsize : excluded.length < grid_width * grid_height) :
    ∃ p, Food.randomize_position excluded samples = some p := by
  have hfree : ∃ i < grid_width, ∃ j < grid_height, grid_cell i j ∉ excluded := by
    by_contra hall
    push_neg at hall
    have hsub : ((Finset.range grid_width) ×ˢ (Finset.range grid_height)).image
        (fun q : Nat × Nat => grid_cell q.1 q.2) ⊆ excluded.toFinset := by
      intro x hx
      obtain ⟨q, hq, rfl⟩ := Finset.mem_image.1 hx
      obtain ⟨hq1, hq2⟩ := Finset.mem_product.1 hq
      exact List.mem_toFinset.2
        (hall q.1 (Finset.mem_range.1 hq1) q.2 (Finset.mem_range.1 hq2))
    have hinj : Set.InjOn (fun q : Nat × Nat => grid_cell q.1 q.2)
        ↑((Finset.range grid_width) ×ˢ (Finset.range grid_height)) := by
      intro q1 _ q2 _ heq
      simp only [grid_cell, Prod.mk.injEq] at heq
      have hz : (FOOD_BLOCK_SIZE : Int) ≠ 0 := by decide
      have e1 : (q1.1 : Int) = q2.1 := mul_right_cancel₀ hz heq.1
      have e2 : (q1.2 : Int) = q2.2 := mul_right_cancel₀ hz heq.2
      exact Prod.ext (Nat.cast_injective e1) (Nat.cast_injective e2)
    have hcard := Finset.card_le_card hsub
    rw [Finset.card_image_of_injOn hinj, Finset.card_product, Finset.card_range,
      Finset.card_range] at hcard
    have hlen := List.toFinset_card_le excluded
    omega
  obtain ⟨i, hi, j, hj, hnotin⟩ := hfree
  obtain ⟨s, hs, hfs⟩ := hcover i hi j hj
  exact randomize_position_isSome excluded samples ⟨s, hs, by rw [hfs]; exact hnotin⟩

theorem C8_spawn_termination_witness :
    ∃ p, Food.randomize_position [] all_samples = some p :=
  C8_spawn_termination [] all_samples all_samples_cover (by decide)

/-- C9: in every reachable session state the snake satisfies
`len(body) ≤ length`, and after the `move()` of any next tick (which,
in the tick order, is never preceded by a `grow()` in the same tick)
the body length equals the target length. -/
theorem C9_length_invariant (g : GameState) (h : Reachable g) :
    g.snake.positions.length ≤ g.snake.length ∧
    ∀ evs : List GEvent,
      ((apply_events g.snake evs).move).positions.length =
        ((apply_events g.snake evs).move).length := by
  obtain ⟨hne, hlen, hmod, hf1, hf2⟩ := reachable_inv g h
  constructor
  · rcases hlen with h' | h' <;> omega
  · intro evs
    apply move_realizes_length
    rw [(apply_events_fields evs g.snake).1, (apply_events_fields evs g.snake).2.1]
    exact hlen

theorem C9_length_invariant_witness :
    g0.snake.positions.length ≤ g0.snake.length ∧
    ((apply_events g0.snake []).move).positions.length =
      ((apply_events g0.snake []).move).length :=
  ⟨(C9_length_invariant g0 (Reachable.reset [(0, 0)] g0 rfl)).1,
   (C9_length_invariant g0 (Reachable.reset [(0, 0)] g0 rfl)).2 []⟩

/-- C10: in every reachable state both coordinates of every snake body
cell are congruent to the reset start cell `(start_x, start_y) =
(390, 290)` modulo `SNAKE_BLOCK_SIZE = 20`, both food coordinates are
exact multiples of `FOOD_BLOCK_SIZE = 20`, and consequently the snake's
head never equals the food position. -/
theorem C10_lattice_invariant (g : GameState) (h : Reachable g) :
    (∀ p ∈ g.snake.positions,
      p.1 % SNAKE_BLOCK_SIZE = start_x % SNAKE_BLOCK_SIZE ∧
      p.2 % SNAKE_BLOCK_SIZE = start_y % SNAKE_BLOCK_SIZE) ∧
    g.food.position.1 % FOOD_BLOCK_SIZE = 0 ∧
    g.food.position.2 % FOOD_BLOCK_SIZE = 0 ∧
    g.snake.get_head_position ≠ g.food.position := by
  obtain ⟨hne, hlen, hmod, hf1, hf2⟩ := reachable_inv g h
  refine ⟨hmod, hf1, hf2, ?_⟩
  intro he
  have hh : g.snake.get_head_position ∈ g.snake.positions := by
    unfold Snake.get_head_position
    cases hp : g.snake.positions with
    | nil => exact absurd hp hne
    | cons a t => exact List.mem_cons_self a t
  have h1 := (hmod _ hh).1
  rw [he] at h1
  have hSF : SNAKE_BLOCK_SIZE = FOOD_BLOCK_SIZE := rfl
  rw [hSF, hf1] at h1
  exact absurd h1 (by decide)

theorem C10_lattice_invariant_witness :
    g0.food.position.1 % FOOD_BLOCK_SIZE = 0 ∧
    g0.snake.get_head_position ≠ g0.food.position :=
  ⟨(C10_lattice_invariant g0 (Reachable.reset [(0, 0)] g0 rfl)).2.1,
   (C10_lattice_invariant g0 (Reachable.reset [(0, 0)] g0 rfl)).2.2.2⟩

/-! ### Lemmas about `step` -/

theorem step_active_eq (samples : List Sample) (evs : List GEvent) (g : GameState)
    (hA : g.game_active = true) :
    step samples evs g = active_branch samples evs g := by
  unfold step
  rw [hA]
  exact if_pos rfl

theorem step_active_else (samples : List Sample) (evs : List GEvent) (g : GameState)
    (hA : g.game_active = true)
    (h1 : in_bounds ((apply_events g.snake evs).move).get_head_position)
    (h2 : ((apply_events g.snake evs).move).check_collision_with_self = false)
    (h3 : ((apply_events g.snake evs).move).get_head_position ≠ g.food.position) :
    step samples evs g =
      some ({ g with snake := (apply_events g.snake evs).move }, !evs.any quit_event) := by
  rw [step_active_eq samples evs g hA]
  unfold active_branch
  rw [if_neg (not_not_intro h1), if_neg (by simp [h2]), if_neg h3]

theorem step_active_eat (samples : List Sample) (evs : List GEvent) (g : GameState) (p : Pos)
    (hA : g.game_active = true)
    (h1 : in_bounds ((apply_events g.snake evs).move).get_head_position)
    (h2 : ((apply_events g.snake evs).move).check_collision_with_self = false)
    (h3 : ((apply_events g.snake evs).move).get_head_position = g.food.position)
    (hr : Food.randomize_position (((apply_events g.snake evs).move).grow).positions samples
      = some p) :
    step samples evs g =
      some ({ g with snake := ((apply_events g.snake evs).move).grow,
                     food := { position := p } },
            !evs.any quit_event) := by
  rw [step_active_eq samples evs g hA]
  unfold active_branch
  rw [if_neg (not_not_intro h1), if_neg (by simp [h2]), if_pos h3, hr]

theorem over_branch_no_reset (samples : List Sample) :
    ∀ evs : List GEvent, GEvent.key_r ∉ evs → ∀ (g : GameState) (r' : Bool),
      over_branch samples evs (g, r') = some (g, r' && !evs.any stops_running) := by
  intro evs
  induction evs with
  | nil =>
    intro _ g r'
    simp [over_branch]
  | cons e rest ih =>
    intro hR g r'
    have hR' : GEvent.key_r ∉ rest := fun hmem => hR (List.mem_cons_of_mem e hmem)
    cases e with
    | key_r => exact absurd (List.mem_cons_self _ _) hR
    | quit =>
      show over_branch samples rest (g, false) = _
      rw [ih hR' g false]
      simp [stops_running]
    | key_q =>
      show over_branch samples rest (g, false) = _
      rw [ih hR' g false]
      simp [stops_running]
    | key_up =>
      show over_branch samples rest (g, r') = _
      rw [ih hR' g r']
      simp [stops_running]
    | key_down =>
      show over_branch samples rest (g, r') = _
      rw [ih hR' g r']
      simp [stops_running]
    | key_left =>
      show over_branch samples rest (g, r') = _
      rw [ih hR' g r']
      simp [stops_running]
    | key_right =>
      show over_branch samples rest (g, r') = _
      rw [ih hR' g r']
      simp [stops_running]
    | other =>
      show over_branch samples rest (g, r') = _
      rw [ih hR' g r']
      simp [stops_running]

/-- C5: on a tick in which the moved head falls outside
`[0, screen_width) × [0, screen_height)`, the session transitions to
game over (`game_active = false`, `game_over_state = true`) and neither
the self-collision check nor the food check runs: the food is untouched
and the snake's score and target length are unchanged (no grow, no
respawn, no score change). -/
theorem C5_boundary_precedence (samples : List Sample) (evs : List GEvent) (g : GameState)
    (hA : g.game_active = true)
    (hB : ¬ in_bounds ((apply_events g.snake evs).move).get_head_position) :
    step samples evs g =
      some ({ g with snake := (apply_events g.snake evs).move,
                     game_active := false, game_over_state := true },
            !evs.any quit_event) ∧
    ((apply_events g.snake evs).move).score = g.snake.score ∧
    ((apply_events g.snake evs).move).length = g.snake.length := by
  refine ⟨?_, ?_, ?_⟩
  · rw [step_active_eq samples evs g hA]
    unfold active_branch
    rw [if_pos hB]
  · exact (apply_events_fields evs g.snake).2.2
  · exact (apply_events_fields evs g.snake).2.1

theorem C5_boundary_precedence_witness :
    step [] [] wall_state =
      some ({ wall_state with snake := (apply_events wall_state.snake []).move,
                              game_active := false, game_over_state := true },
            !([] : List GEvent).any quit_event) ∧
    ((apply_events wall_state.snake []).move).score = wall_state.snake.score ∧
    ((apply_events wall_state.snake []).move).length = wall_state.snake.length :=
  C5_boundary_precedence [] [] wall_state rfl (by decide)

/-- C6: while `game_active = false`, a loop iteration mutates neither
the snake nor the food: with no restart key the state is returned
untouched (and the loop keeps running exactly when no quit input
arrived), and the only way the session leaves the game-over state is an
explicit `K_r` reset. -/
theorem C6_gameover_freeze (samples : List Sample) (evs : List GEvent) (g : GameState)
    (hA : g.game_active = false) :
    (GEvent.key_r ∉ evs →
      step samples evs g = some (g, !evs.any stops_running)) ∧
    (∀ g' b, step samples evs g = some (g', b) → g'.game_active = true →
      GEvent.key_r ∈ evs) := by
  have hstep : step samples evs g = over_branch samples evs (g, true) := by
    unfold step
    rw [hA]
    exact if_neg (by simp)
  constructor
  · intro hR
    rw [hstep, over_branch_no_reset samples evs hR g true]
    rw [Bool.true_and]
  · intro g' b hs hact
    by_contra hR
    rw [hstep, over_branch_no_reset samples evs hR g true] at hs
    have hg : g = g' := congrArg Prod.fst (Option.some.inj hs)
    rw [← hg, hA] at hact
    exact Bool.false_ne_true hact

theorem C6_gameover_freeze_witness :
    step [] [GEvent.key_up, GEvent.other] over_state =
      some (over_state, !([GEvent.key_up, GEvent.other] : List GEvent).any stops_running) :=
  (C6_gameover_freeze [] [GEvent.key_up, GEvent.other] over_state rfl).1 (by decide)

/-- C1: from a freshly reset session (snake of length 1 at the center,
direction Right) with the food placed on the cell immediately to the
right of the head, the next tick moves the head onto the food cell and
consumes it — score 1, target length 2, food respawned off the snake —
and the tick after that realizes the new length with a two-cell body.
(The food placement is stipulated: the actual spawner, which samples
the `FOOD_BLOCK_SIZE` lattice, never produces this cell.) -/
theorem C1_food_consumption (samples samples2 : List Sample) (p : Pos)
    (hr : Food.randomize_position [scenario_food] samples = some p) :
    ∃ g1 : GameState,
      step samples [] scenario_start = some (g1, true) ∧
      g1.snake.score = 1 ∧ g1.snake.length = 2 ∧
      g1.snake.positions = [scenario_food] ∧
      g1.food.position = p ∧ g1.food.position ∉ g1.snake.positions ∧
      g1.game_active = true ∧
      ∃ g2 : GameState,
        step samples2 [] g1 = some (g2, true) ∧
        g2.snake.positions =
          [(start_x + 2 * SNAKE_BLOCK_SIZE, start_y), scenario_food] ∧
        g2.snake.length = 2 ∧ g2.snake.score = 1 := by
  have hspec := randomize_position_spec _ _ _ hr
  refine ⟨⟨⟨2, [scenario_food], (1, 0), 1⟩, ⟨p⟩, true, false⟩,
    ?_, rfl, rfl, rfl, rfl, ?_, rfl, ?_⟩
  · exact step_active_eat samples [] scenario_start p rfl (by decide) (by decide) rfl hr
  · exact hspec.1
  · have hp1 : p.1 % FOOD_BLOCK_SIZE = 0 := hspec.2.2.2.2.2.1
    have hne2 : (((430 : Int), (290 : Int)) : Pos) ≠ p := by
      intro hc
      rw [← hc] at hp1
      exact absurd hp1 (by decide)
    refine ⟨⟨⟨2, [(start_x + 2 * SNAKE_BLOCK_SIZE, start_y), scenario_food], (1, 0), 1⟩,
      ⟨p⟩, true, false⟩, ?_, rfl, rfl, rfl⟩
    exact step_active_else samples2 []
      (⟨⟨2, [scenario_food], (1, 0), 1⟩, ⟨p⟩, true, false⟩ : GameState)
      rfl
      (show in_bounds ((⟨2, [scenario_food], (1, 0), 1⟩ : Snake).move).get_head_position
        by decide)
      (show ((⟨2, [scenario_food], (1, 0), 1⟩ : Snake).move).check_collision_with_self = false
        by decide)
      hne2

theorem C1_food_consumption_witness :
    ∃ g1 : GameState,
      step [(0, 0)] [] scenario_start = some (g1, true) ∧
      g1.snake.score = 1 ∧ g1.snake.length = 2 ∧
      g1.snake.positions = [scenario_food] ∧
      g1.food.position = ((0 : Int), (0 : Int)) ∧
      g1.food.position ∉ g1.snake.positions ∧
      g1.game_active = true ∧
      ∃ g2 : GameState,
        step [] [] g1 = some (g2, true) ∧
        g2.snake.positions =
          [(start_x + 2 * SNAKE_BLOCK_SIZE, start_y), scenario_food] ∧
        g2.snake.length = 2 ∧ g2.snake.score = 1 :=
  C1_food_consumption [(0, 0)] [] ((0 : Int), (0 : Int)) (by decide)
